import Mathlib

/-!
# Verification of the MicroRepay Optimization Engine

A shallow embedding of the repository's optimization module
(`AvalancheStrategy`, `SnowballStrategy`, `HybridStrategy`,
`OptimizationEngine`), with theorems settling the specification's claims
about allocation, projection, validation and dispatch behaviour.

Monetary amounts and interest rates are modelled as rational numbers
(the source uses JavaScript numbers; the spec mandates exact
decimal/rational arithmetic, and every claim here is about order and
bounds, which agree between the two on all inputs exercised).
JavaScript's `Array.prototype.sort` with a numeric comparator is, per
the ECMAScript specification, a stable sort producing a list ordered by
the comparator; it is modelled by `List.insertionSort` over the
corresponding total preorder, which is sorted, a permutation of the
input, and stable.
-/

namespace MicroRepay

/-- `DebtAccount` interface from the source module. -/
structure DebtAccount where
  id : String
  creditorId : String
  accountId : String
  currentBalance : ℚ
  interestRate : ℚ
  minimumPayment : ℚ
  dueDate : String
deriving DecidableEq, Repr

/-- `PaymentSchedule` interface from the source module. -/
structure PaymentSchedule where
  accountId : String
  amount : ℚ
  date : String
  priority : Nat
deriving DecidableEq, Repr

/-- The comparator `(a, b) => b.interestRate - a.interestRate` used by the
avalanche sort (and the hybrid high-interest sort): `a` may be placed
before `b` exactly when `comparator(a,b) <= 0` fails to demand otherwise,
i.e. when `b.interestRate <= a.interestRate`. -/
def rateDescLE (a b : DebtAccount) : Prop :=
  b.interestRate ≤ a.interestRate

/-- The comparator `(a, b) => a.currentBalance - b.currentBalance` used by
the snowball sort (and the hybrid low-balance sort). -/
def balanceAscLE (a b : DebtAccount) : Prop :=
  a.currentBalance ≤ b.currentBalance

instance : DecidableRel rateDescLE := fun a b =>
  inferInstanceAs (Decidable (b.interestRate ≤ a.interestRate))

instance : DecidableRel balanceAscLE := fun a b =>
  inferInstanceAs (Decidable (a.currentBalance ≤ b.currentBalance))

instance : IsTotal DebtAccount rateDescLE :=
  ⟨fun a b => le_total b.interestRate a.interestRate⟩

instance : IsTrans DebtAccount rateDescLE :=
  ⟨fun _ _ _ h1 h2 => le_trans h2 h1⟩

instance : IsTotal DebtAccount balanceAscLE :=
  ⟨fun a b => le_total a.currentBalance b.currentBalance⟩

instance : IsTrans DebtAccount balanceAscLE :=
  ⟨fun _ _ _ h1 h2 => le_trans h1 h2⟩

/-- The greedy allocation loop shared verbatim by the private
`generateSchedule` methods of `AvalancheStrategy` and `SnowballStrategy`
(and inlined twice in `HybridStrategy.calculatePayments`):

```
for (const account of accounts) {
  if (remainingFunds <= 0) break;
  const paymentAmount = Math.min(remainingFunds, account.currentBalance);
  if (paymentAmount > 0) {
    schedule.push({ accountId, amount: paymentAmount, date: startDate,
                    priority: schedule.length + 1 });
    remainingFunds -= paymentAmount;
  }
}
```

`k` is the length of the `schedule` array already accumulated when the
loop starts (0 for avalanche/snowball; the length of the high-interest
pass for hybrid's second loop), so each pushed entry gets
`priority = k + entries already pushed by this loop + 1`. -/
def generateScheduleGo (startDate : String) :
    List DebtAccount → ℚ → Nat → List PaymentSchedule
  | [], _, _ => []
  | account :: rest, remainingFunds, k =>
    if remainingFunds ≤ 0 then []
    else
      let paymentAmount := min remainingFunds account.currentBalance
      if 0 < paymentAmount then
        { accountId := account.accountId
          amount := paymentAmount
          date := startDate
          priority := k + 1 } ::
          generateScheduleGo startDate rest (remainingFunds - paymentAmount) (k + 1)
      else
        generateScheduleGo startDate rest remainingFunds k

/-- `generateSchedule(accounts, availableFunds, startDate)`, the private
method of `AvalancheStrategy` and (textually identical) of
`SnowballStrategy`. -/
def generateSchedule (accounts : List DebtAccount) (availableFunds : ℚ)
    (startDate : String) : List PaymentSchedule :=
  generateScheduleGo startDate accounts availableFunds 0

namespace AvalancheStrategy

/-- `AvalancheStrategy.calculatePayments`: sorts a copy of the input by
interest rate descending (`[...accounts].sort((a, b) => b.interestRate -
a.interestRate)`), then runs the greedy loop. -/
def calculatePayments (accounts : List DebtAccount) (availableFunds : ℚ)
    (startDate : String) : List PaymentSchedule :=
  let sortedAccounts := accounts.insertionSort rateDescLE
  generateSchedule sortedAccounts availableFunds startDate

end AvalancheStrategy

namespace SnowballStrategy

/-- `SnowballStrategy.calculatePayments`: sorts a copy of the input by
current balance ascending (`[...accounts].sort((a, b) => a.currentBalance -
b.currentBalance)`), then runs the greedy loop. -/
def calculatePayments (accounts : List DebtAccount) (availableFunds : ℚ)
    (startDate : String) : List PaymentSchedule :=
  let sortedAccounts := accounts.insertionSort balanceAscLE
  generateSchedule sortedAccounts availableFunds startDate

end SnowballStrategy

namespace HybridStrategy

/-- The `highInterestThreshold = 0.15` constant of `HybridStrategy`. -/
def highInterestThreshold : ℚ := 15 / 100

/-- The `lowBalanceThreshold = 1000` constant of `HybridStrategy`. -/
def lowBalanceThreshold : ℚ := 1000

/-- `HybridStrategy.calculatePayments`: filters the high-interest accounts
(rate ≥ 0.15, sorted by rate descending) and the low-balance accounts
(balance ≤ 1000, sorted by balance ascending), gives 70% of the funds to
the first group and 30% to the second, and runs the greedy loop on each
group in turn, pushing onto a single shared `schedule` array (so the
second loop's priorities continue from the first loop's length). -/
def calculatePayments (accounts : List DebtAccount) (availableFunds : ℚ)
    (startDate : String) : List PaymentSchedule :=
  let highInterestAccounts :=
    (accounts.filter fun account =>
      decide (highInterestThreshold ≤ account.interestRate)).insertionSort rateDescLE
  let lowBalanceAccounts :=
    (accounts.filter fun account =>
      decide (account.currentBalance ≤ lowBalanceThreshold)).insertionSort balanceAscLE
  let highInterestFunds := availableFunds * (7 / 10)
  let lowBalanceFunds := availableFunds * (3 / 10)
  let part1 := generateScheduleGo startDate highInterestAccounts highInterestFunds 0
  let part2 := generateScheduleGo startDate lowBalanceAccounts lowBalanceFunds part1.length
  part1 ++ part2

end HybridStrategy

/-- The three strategies registered by the `OptimizationEngine`
constructor, keyed `'avalanche'`, `'snowball'`, `'hybrid'`. -/
inductive StrategyName where
  | avalanche
  | snowball
  | hybrid
deriving DecidableEq, Repr

/-- Dispatch of `calculatePayments` over the registered strategy objects. -/
def strategyCalculate : StrategyName → List DebtAccount → ℚ → String →
    List PaymentSchedule
  | .avalanche => AvalancheStrategy.calculatePayments
  | .snowball => SnowballStrategy.calculatePayments
  | .hybrid => HybridStrategy.calculatePayments

/-- Model of JavaScript's `String.prototype.toLowerCase()` (all the
registered keys are ASCII): lowercase every character. Defined directly
over the character list so that it is computable by the kernel. -/
def jsToLower (s : String) : String :=
  ⟨s.data.map Char.toLower⟩

/-- The `this.strategies` map lookup: keys are the lowercase names. -/
def strategiesGet (key : String) : Option StrategyName :=
  if key = "avalanche" then some .avalanche
  else if key = "snowball" then some .snowball
  else if key = "hybrid" then some .hybrid
  else none

/-- The only error the engine can throw:
`throw new Error("Unknown optimization strategy: " + strategyName)`. -/
inductive EngineError where
  | unknownStrategy (strategyName : String)
deriving DecidableEq, Repr

namespace OptimizationEngine

/-- `OptimizationEngine.optimizePayments`: looks the strategy up by
`strategyName.toLowerCase()`, throws if absent, otherwise delegates to the
strategy's `calculatePayments`. -/
def optimizePayments (strategyName : String) (accounts : List DebtAccount)
    (availableFunds : ℚ) (startDate : String) :
    Except EngineError (List PaymentSchedule) :=
  match strategiesGet (jsToLower strategyName) with
  | none => .error (.unknownStrategy strategyName)
  | some s => .ok (strategyCalculate s accounts availableFunds startDate)

end OptimizationEngine

/-- One element of the `simulatedAccounts` working array:
`{ ...account, remainingBalance: account.currentBalance }` — a fresh
object spreading the input account's fields plus a mutable
`remainingBalance`. -/
structure SimAccount where
  account : DebtAccount
  remainingBalance : ℚ
deriving DecidableEq, Repr

/-- The "apply monthly interest" pass of the simulation loop: for every
simulated account still carrying a positive remaining balance,
`remainingBalance += remainingBalance * (interestRate / 12)`. -/
def applyMonthlyInterest (accs : List SimAccount) : List SimAccount :=
  accs.map fun s =>
    if 0 < s.remainingBalance then
      { s with remainingBalance :=
          s.remainingBalance + s.remainingBalance * (s.account.interestRate / 12) }
    else s

/-- One scheduled payment applied to the working array:
`simulatedAccounts.find(acc => acc.accountId === payment.accountId)` picks
the first account with a matching id; if it exists and its remaining
balance is positive, `min(payment.amount, remainingBalance)` is paid off.
Returns the updated array and the amount actually paid. -/
def applyPayment : List SimAccount → PaymentSchedule → List SimAccount × ℚ
  | [], _ => ([], 0)
  | s :: rest, payment =>
    if s.account.accountId = payment.accountId then
      if 0 < s.remainingBalance then
        let paymentAmount := min payment.amount s.remainingBalance
        ({ s with remainingBalance := s.remainingBalance - paymentAmount } :: rest,
          paymentAmount)
      else (s :: rest, 0)
    else
      let r := applyPayment rest payment
      (s :: r.1, r.2)

/-- The "apply scheduled payments" pass: every schedule entry is applied
in order to the working array, accumulating the total paid this month. -/
def applyScheduledPayments (accs : List SimAccount)
    (paymentSchedule : List PaymentSchedule) : List SimAccount × ℚ :=
  paymentSchedule.foldl
    (fun acc payment =>
      let r := applyPayment acc.1 payment
      (r.1, acc.2 + r.2))
    (accs, 0)

/-- One iteration of the `while` body: interest first, then payments. -/
def simulateMonth (accs : List SimAccount)
    (paymentSchedule : List PaymentSchedule) : List SimAccount × ℚ :=
  applyScheduledPayments (applyMonthlyInterest accs) paymentSchedule

/-- The source's simulation loop
`while (simulatedAccounts.some(account => account.remainingBalance > 0))`
is unbounded; `fuel` counts how many further iterations the model is
willing to unfold. `none` means the loop has not terminated within `fuel`
iterations (so `∀ fuel, ... = none` is exactly non-termination of the
source loop). On termination it returns `(monthsToPayoff, totalPayments)`. -/
def simulateLoop (paymentSchedule : List PaymentSchedule) :
    Nat → List SimAccount → Nat → ℚ → Option (Nat × ℚ)
  | fuel, accs, monthsToPayoff, totalPayments =>
    if accs.any fun s => decide (0 < s.remainingBalance) then
      match fuel with
      | 0 => none
      | fuel' + 1 =>
        let r := simulateMonth accs paymentSchedule
        simulateLoop paymentSchedule fuel' r.1 (monthsToPayoff + 1)
          (totalPayments + r.2)
    else
      some (monthsToPayoff, totalPayments)

/-- The minimum-payment baseline reduce:

```
accounts.reduce((sum, account) => {
  const monthlyPayment = account.minimumPayment;
  const monthlyInterest = account.currentBalance * (account.interestRate / 12);
  const monthsToPayoff = Math.ceil(currentBalance / (monthlyPayment - monthlyInterest));
  return sum + (monthlyPayment * monthsToPayoff);
}, 0)
```

The code guards nothing here: when `monthlyPayment - monthlyInterest` is
zero JavaScript produces `Infinity` (and this rational model, where
division by zero yields 0, diverges from it at exactly that point — the
theorems below only evaluate it where the difference is nonzero, where
the two semantics agree); when the difference is negative both produce a
negative month count. -/
def originalTotal (accounts : List DebtAccount) : ℚ :=
  accounts.foldl
    (fun sum account =>
      let monthlyPayment := account.minimumPayment
      let monthlyInterest := account.currentBalance * (account.interestRate / 12)
      let monthsToPayoff : ℤ :=
        ⌈account.currentBalance / (monthlyPayment - monthlyInterest)⌉
      sum + monthlyPayment * (monthsToPayoff : ℚ))
    0

/-- The return shape of `calculateProjectedSavings`. -/
structure ProjectionResult where
  totalInterestSaved : ℚ
  monthsToPayoff : Nat
  totalPayments : ℚ
deriving DecidableEq, Repr

namespace OptimizationEngine

/-- `OptimizationEngine.calculateProjectedSavings`: copies the accounts
into the simulated working set, runs the month-by-month loop (unbounded
in the source, hence the `fuel` parameter; `none` = the loop is still
running after `fuel` iterations), then subtracts the simulated total
payments from the minimum-payment baseline. The source throws no error
anywhere in this method. -/
def calculateProjectedSavings (fuel : Nat) (accounts : List DebtAccount)
    (paymentSchedule : List PaymentSchedule) : Option ProjectionResult :=
  let simulatedAccounts := accounts.map fun account =>
    { account := account, remainingBalance := account.currentBalance }
  match simulateLoop paymentSchedule fuel simulatedAccounts 0 0 with
  | none => none
  | some (monthsToPayoff, totalPayments) =>
    some { totalInterestSaved := originalTotal accounts - totalPayments
           monthsToPayoff := monthsToPayoff
           totalPayments := totalPayments }

end OptimizationEngine

/-! ### Caller-visible state

The source methods receive the caller's `accounts` array by reference.
Each operation below is rendered as a procedure returning its result
*and* the contents of the caller's array after the call, translated
statement by statement: `[...accounts]` allocates a fresh array (so the
subsequent in-place `.sort` touches only the copy), `accounts.filter`
allocates fresh arrays, and the projection's `accounts.map(account =>
({ ...account, ... }))` allocates fresh objects, which are the only
objects the loop body writes to. No statement writes through the caller's
reference, so the post-call contents are the unchanged input list. -/

namespace AvalancheStrategy

/-- `AvalancheStrategy.calculatePayments` with the caller's array made
explicit: the result plus the caller-visible `accounts` after the call. -/
def calculatePaymentsCall (accounts : List DebtAccount) (availableFunds : ℚ)
    (startDate : String) : List PaymentSchedule × List DebtAccount :=
  let sortedAccounts := accounts.insertionSort rateDescLE
  (generateSchedule sortedAccounts availableFunds startDate, accounts)

end AvalancheStrategy

namespace SnowballStrategy

/-- `SnowballStrategy.calculatePayments` with the caller's array made
explicit. -/
def calculatePaymentsCall (accounts : List DebtAccount) (availableFunds : ℚ)
    (startDate : String) : List PaymentSchedule × List DebtAccount :=
  let sortedAccounts := accounts.insertionSort balanceAscLE
  (generateSchedule sortedAccounts availableFunds startDate, accounts)

end SnowballStrategy

namespace HybridStrategy

/-- `HybridStrategy.calculatePayments` with the caller's array made
explicit. -/
def calculatePaymentsCall (accounts : List DebtAccount) (availableFunds : ℚ)
    (startDate : String) : List PaymentSchedule × List DebtAccount :=
  (calculatePayments accounts availableFunds startDate, accounts)

end HybridStrategy

namespace OptimizationEngine

/-- `OptimizationEngine.calculateProjectedSavings` with the caller's array
made explicit: all writes inside the method go to the fresh
`simulatedAccounts` objects. -/
def calculateProjectedSavingsCall (fuel : Nat) (accounts : List DebtAccount)
    (paymentSchedule : List PaymentSchedule) :
    Option ProjectionResult × List DebtAccount :=
  (calculateProjectedSavings fuel accounts paymentSchedule, accounts)

end OptimizationEngine

/-! ### Measured quantities and fixed test data -/

/-- The C2 counterexample account: balance 1200 at 12% APR, i.e. 12 of
monthly interest. -/
def nonAmortizingAccount : DebtAccount :=
  { id := "d1", creditorId := "c1", accountId := "A",
    currentBalance := 1200, interestRate := 12 / 100,
    minimumPayment := 50, dueDate := "2026-01-01" }

/-- The C2 counterexample working set: `nonAmortizingAccount` receiving a
scheduled payment of exactly its monthly interest, so each simulated month
returns the working set to this exact state. -/
def nonAmortizingSim : List SimAccount :=
  [{ account := nonAmortizingAccount
     remainingBalance := nonAmortizingAccount.currentBalance }]

/-- The schedule that exactly covers the monthly interest of
`nonAmortizingSim`. -/
def nonAmortizingSchedule : List PaymentSchedule :=
  [{ accountId := "A", amount := 12, date := "2026-01-01", priority := 1 }]


/-- Sum of the `amount` fields of a schedule. -/
def scheduleTotal (schedule : List PaymentSchedule) : ℚ :=
  (schedule.map fun e => e.amount).sum

/-- Sum of the `currentBalance` fields of an account list. -/
def totalBalance (accounts : List DebtAccount) : ℚ :=
  (accounts.map fun a => a.currentBalance).sum

/-- The relation on index-tagged accounts induced by a comparator on
accounts. Sorting the tagged list and dropping the tags agrees with
sorting the plain list, and on tagged lists the stability of the sort can
be stated without ambiguity between duplicate account records. -/
def relTag (rel : DebtAccount → DebtAccount → Prop) :
    Nat × DebtAccount → Nat × DebtAccount → Prop :=
  fun x y => rel x.2 y.2

instance (rel : DebtAccount → DebtAccount → Prop) [h : DecidableRel rel] :
    DecidableRel (relTag rel) :=
  fun x y => h x.2 y.2

instance (rel : DebtAccount → DebtAccount → Prop) [IsTotal DebtAccount rel] :
    IsTotal (Nat × DebtAccount) (relTag rel) :=
  ⟨fun x y => IsTotal.total x.2 y.2⟩

instance (rel : DebtAccount → DebtAccount → Prop) [IsTrans DebtAccount rel] :
    IsTrans (Nat × DebtAccount) (relTag rel) :=
  ⟨fun x y z h1 h2 => IsTrans.trans x.2 y.2 z.2 h1 h2⟩

/-- The spec's worked-example account A: balance 1000 at 5% APR. -/
def exampleAccountA : DebtAccount :=
  { id := "dA", creditorId := "cA", accountId := "A",
    currentBalance := 1000, interestRate := 5 / 100,
    minimumPayment := 25, dueDate := "2026-02-01" }

/-- The spec's worked-example account B: balance 500 at 20% APR. -/
def exampleAccountB : DebtAccount :=
  { id := "dB", creditorId := "cB", accountId := "B",
    currentBalance := 500, interestRate := 20 / 100,
    minimumPayment := 25, dueDate := "2026-02-01" }

/-- The spec's worked-example portfolio, in input order A then B. -/
def exampleAccounts : List DebtAccount :=
  [exampleAccountA, exampleAccountB]

/-! ## Theorems -/

/-- C1: the claim says that whenever some account's `minimum_payment` is at
most its monthly interest `current_balance * interest_rate / 12`,
`calculateProjectedSavings` raises a `NonAmortizingMinimumPayment` error
rather than returning a result. The code contains no such error: on the
account below (minimum payment 6, monthly interest 12, so the claim's
trigger holds) with a schedule that pays the debt off in one month, it
returns an ordinary result whose `totalInterestSaved` is the meaningless
value `-2412` (the baseline "months to payoff" evaluates to `-200`). -/
theorem projectedSavings_nonAmortizing_returns_result :
    (6 : ℚ) ≤ 1200 * ((12 / 100) / 12) ∧
    OptimizationEngine.calculateProjectedSavings 2
      [{ id := "d1", creditorId := "c1", accountId := "A",
         currentBalance := 1200, interestRate := 12 / 100,
         minimumPayment := 6, dueDate := "2026-01-01" }]
      [{ accountId := "A", amount := 2000, date := "2026-01-01", priority := 1 }] =
      some { totalInterestSaved := -2412, monthsToPayoff := 1,
             totalPayments := 1212 } := by
  constructor
  · norm_num
  · norm_num [OptimizationEngine.calculateProjectedSavings, simulateLoop,
      simulateMonth, applyScheduledPayments, applyPayment, applyMonthlyInterest,
      originalTotal, min_def]
    rw [show ((-200 : ℚ)) = ((-200 : ℤ) : ℚ) by norm_num, Int.ceil_intCast]
    norm_num

/-- The simulation loop never leaves the fixed point of
`nonAmortizingSim`, whatever fuel it is given. -/
theorem simulateLoop_nonAmortizing_eq_none :
    ∀ (fuel monthsToPayoff : Nat) (totalPayments : ℚ),
      simulateLoop nonAmortizingSchedule fuel nonAmortizingSim
        monthsToPayoff totalPayments = none := by
  intro fuel
  induction fuel with
  | zero => intro m t; rfl
  | succ n ih =>
    intro m t
    have hm : simulateMonth nonAmortizingSim nonAmortizingSchedule =
        (nonAmortizingSim, 12) := by
      norm_num [simulateMonth, applyScheduledPayments, applyPayment,
        applyMonthlyInterest, nonAmortizingSim, nonAmortizingSchedule,
        nonAmortizingAccount, min_def]
    have hstep : simulateLoop nonAmortizingSchedule (n + 1) nonAmortizingSim m t =
        simulateLoop nonAmortizingSchedule n nonAmortizingSim (m + 1) (t + 12) := by
      rw [simulateLoop]
      have hcond : (nonAmortizingSim.any fun s =>
          decide (0 < s.remainingBalance)) = true := by decide
      rw [if_pos hcond, hm]
    rw [hstep]
    exact ih (m + 1) (t + 12)

/-- C2: the claim says the month-by-month simulation loop is bounded by a
maximum iteration count and raises `PayoffHorizonExceeded` when exceeded.
The source's `while` loop has no bound and no such error exists anywhere
in the module: on a schedule whose payment exactly matches the monthly
interest accrual, the loop never terminates (the model returns `none`,
i.e. "still running", for every fuel value). -/
theorem projectedSavings_unbounded_loop_diverges (fuel : Nat) :
    OptimizationEngine.calculateProjectedSavings fuel
      [nonAmortizingAccount] nonAmortizingSchedule = none := by
  have h := simulateLoop_nonAmortizing_eq_none fuel 0 0
  have e : ([nonAmortizingAccount].map fun account =>
      ({ account := account, remainingBalance := account.currentBalance } :
        SimAccount)) = nonAmortizingSim := rfl
  unfold OptimizationEngine.calculateProjectedSavings
  rw [e]
  simp only [h]

/-- C3: the claim says negative `available_funds` or a negative
`current_balance` triggers an `InvalidInput` error before any allocation
work. The code performs no input validation at all: with negative funds
it silently returns an empty schedule (the loop's `remainingFunds <= 0`
check breaks immediately), and a negative-balance account is silently
skipped, here likewise yielding `ok []` instead of an error. -/
theorem optimizePayments_accepts_invalid_input :
    OptimizationEngine.optimizePayments "avalanche"
      [{ id := "d1", creditorId := "c1", accountId := "A",
         currentBalance := 1200, interestRate := 12 / 100,
         minimumPayment := 50, dueDate := "2026-01-01" }] (-1) "2026-01-01" =
      .ok [] ∧
    OptimizationEngine.optimizePayments "avalanche"
      [{ id := "d1", creditorId := "c1", accountId := "A",
         currentBalance := -50, interestRate := 12 / 100,
         minimumPayment := 50, dueDate := "2026-01-01" }] 100 "2026-01-01" =
      .ok [] ∧
    OptimizationEngine.optimizePayments "snowball"
      [{ id := "d1", creditorId := "c1", accountId := "A",
         currentBalance := -50, interestRate := 12 / 100,
         minimumPayment := 50, dueDate := "2026-01-01" }] 100 "2026-01-01" =
      .ok [] := by
  have hav : jsToLower "avalanche" = "avalanche" := by decide
  have hsn : jsToLower "snowball" = "snowball" := by decide
  refine ⟨?_, ?_, ?_⟩
  · unfold OptimizationEngine.optimizePayments strategiesGet
    rw [hav, if_pos rfl]
    norm_num [strategyCalculate, AvalancheStrategy.calculatePayments,
      generateSchedule, generateScheduleGo, List.insertionSort,
      List.orderedInsert, min_def]
  · unfold OptimizationEngine.optimizePayments strategiesGet
    rw [hav, if_pos rfl]
    norm_num [strategyCalculate, AvalancheStrategy.calculatePayments,
      generateSchedule, generateScheduleGo, List.insertionSort,
      List.orderedInsert, min_def]
  · unfold OptimizationEngine.optimizePayments strategiesGet
    rw [hsn, if_neg (by decide), if_pos rfl]
    norm_num [strategyCalculate, SnowballStrategy.calculatePayments,
      generateSchedule, generateScheduleGo, List.insertionSort,
      List.orderedInsert, min_def]

/-- C8: `optimizePayments` looks its strategy up by the lowercased name:
any name whose lowercase form is not a registered key is rejected with the
"Unknown optimization strategy" error (no fallback), and any name whose
lowercase form is `avalanche`, `snowball` or `hybrid` dispatches
successfully whatever its letter case. -/
theorem optimizePayments_dispatch (strategyName : String)
    (accounts : List DebtAccount) (availableFunds : ℚ) (startDate : String) :
    (jsToLower strategyName ∉ (["avalanche", "snowball", "hybrid"] : List String) →
      OptimizationEngine.optimizePayments strategyName accounts availableFunds
        startDate = .error (.unknownStrategy strategyName)) ∧
    (jsToLower strategyName ∈ (["avalanche", "snowball", "hybrid"] : List String) →
      ∃ schedule, OptimizationEngine.optimizePayments strategyName accounts
        availableFunds startDate = .ok schedule) := by
  constructor
  · intro hnot
    have h1 : jsToLower strategyName ≠ "avalanche" := fun h => hnot (by simp [h])
    have h2 : jsToLower strategyName ≠ "snowball" := fun h => hnot (by simp [h])
    have h3 : jsToLower strategyName ≠ "hybrid" := fun h => hnot (by simp [h])
    unfold OptimizationEngine.optimizePayments strategiesGet
    rw [if_neg h1, if_neg h2, if_neg h3]
  · intro hmem
    unfold OptimizationEngine.optimizePayments strategiesGet
    rcases (by simpa using hmem : jsToLower strategyName = "avalanche" ∨
        jsToLower strategyName = "snowball" ∨ jsToLower strategyName = "hybrid")
      with h | h | h
    · rw [if_pos h]
      exact ⟨_, rfl⟩
    · rw [h, if_neg (by decide), if_pos rfl]
      exact ⟨_, rfl⟩
    · rw [h, if_neg (by decide), if_neg (by decide), if_pos rfl]
      exact ⟨_, rfl⟩

/-- Witness for C8 at concrete inputs: a name outside the registry is
rejected, and a mixed-case registered name is accepted. -/
theorem optimizePayments_dispatch_witness :
    OptimizationEngine.optimizePayments "fifo" [] 0 "2026-01-01" =
      .error (.unknownStrategy "fifo") ∧
    ∃ schedule, OptimizationEngine.optimizePayments "SnowBall" [] 0 "2026-01-01" =
      .ok schedule :=
  ⟨(optimizePayments_dispatch "fifo" [] 0 "2026-01-01").1 (by decide),
   (optimizePayments_dispatch "SnowBall" [] 0 "2026-01-01").2 (by decide)⟩

/-- Priorities pushed by the greedy loop continue consecutively from the
`k` entries already in the schedule array. -/
theorem generateScheduleGo_map_priority (startDate : String) :
    ∀ (accounts : List DebtAccount) (remainingFunds : ℚ) (k : Nat),
      (generateScheduleGo startDate accounts remainingFunds k).map
          (fun e => e.priority) =
        List.range' (k + 1)
          (generateScheduleGo startDate accounts remainingFunds k).length := by
  intro accounts
  induction accounts with
  | nil => intro rem k; rfl
  | cons a rest ih =>
    intro rem k
    by_cases h0 : rem ≤ 0
    · simp [generateScheduleGo, h0]
    · by_cases h1 : 0 < min rem a.currentBalance
      · simp [generateScheduleGo, h0, h1, ih, List.range']
      · simp [generateScheduleGo, h0, h1, ih]

/-- C10: for each of the three strategies the `priority` fields of the
returned schedule are exactly `1, 2, ..., n` in list order; in particular
the hybrid strategy's low-balance pass continues the numbering after the
high-interest pass (both loops push onto one shared array whose length
seeds the priority), rather than restarting at 1. -/
theorem schedule_priorities_consecutive (s : StrategyName)
    (accounts : List DebtAccount) (availableFunds : ℚ) (startDate : String) :
    (strategyCalculate s accounts availableFunds startDate).map
        (fun e => e.priority) =
      List.range' 1 (strategyCalculate s accounts availableFunds startDate).length := by
  cases s with
  | avalanche => exact generateScheduleGo_map_priority startDate _ availableFunds 0
  | snowball => exact generateScheduleGo_map_priority startDate _ availableFunds 0
  | hybrid =>
    show (HybridStrategy.calculatePayments accounts availableFunds startDate).map _ =
      List.range' 1 (HybridStrategy.calculatePayments accounts availableFunds
        startDate).length
    simp only [HybridStrategy.calculatePayments]
    rw [List.map_append, List.length_append]
    rw [generateScheduleGo_map_priority, generateScheduleGo_map_priority]
    rw [show (0 + 1 : Nat) = 1 from rfl]
    rw [Nat.add_comm
      (generateScheduleGo startDate _ (availableFunds * (7 / 10)) 0).length
      (generateScheduleGo startDate _ (availableFunds * (3 / 10)) _).length]
    rw [← Nat.add_comm 1 _]
    exact List.range'_append_1 1 _ _

/-- Every entry pushed by the greedy loop comes from some account of the
walked list, pays a positive amount, and pays at most that account's
current balance. -/
theorem generateScheduleGo_entries (startDate : String) :
    ∀ (accounts : List DebtAccount) (remainingFunds : ℚ) (k : Nat)
      (e : PaymentSchedule),
      e ∈ generateScheduleGo startDate accounts remainingFunds k →
      ∃ a ∈ accounts, e.accountId = a.accountId ∧ 0 < e.amount ∧
        e.amount ≤ a.currentBalance := by
  intro accounts
  induction accounts with
  | nil => intro rem k e he; simp [generateScheduleGo] at he
  | cons a rest ih =>
    intro rem k e he
    by_cases h0 : rem ≤ 0
    · simp [generateScheduleGo, h0] at he
    · by_cases h1 : 0 < min rem a.currentBalance
      · simp only [generateScheduleGo, if_neg h0, if_pos h1] at he
        rcases List.mem_cons.mp he with rfl | hrest
        · exact ⟨a, List.mem_cons_self a rest, rfl, h1, min_le_right _ _⟩
        · obtain ⟨b, hb, hid, hpos, hle⟩ := ih _ _ _ hrest
          exact ⟨b, List.mem_cons_of_mem a hb, hid, hpos, hle⟩
      · simp only [generateScheduleGo, if_neg h0, if_neg h1] at he
        obtain ⟨b, hb, hid, hpos, hle⟩ := ih _ _ _ he
        exact ⟨b, List.mem_cons_of_mem a hb, hid, hpos, hle⟩

/-- C7: for every strategy, every schedule entry targets an input account
with strictly positive current balance, and its amount is strictly
positive and at most that account's balance at decision time. -/
theorem schedule_entries_target_positive (s : StrategyName)
    (accounts : List DebtAccount) (availableFunds : ℚ) (startDate : String) :
    ∀ e ∈ strategyCalculate s accounts availableFunds startDate,
      ∃ a ∈ accounts, e.accountId = a.accountId ∧ 0 < a.currentBalance ∧
        0 < e.amount ∧ e.amount ≤ a.currentBalance := by
  intro e he
  cases s with
  | avalanche =>
    obtain ⟨a, ha, hid, hpos, hle⟩ := generateScheduleGo_entries startDate _ _ _ e he
    exact ⟨a, (List.mem_insertionSort rateDescLE).mp ha, hid,
      lt_of_lt_of_le hpos hle, hpos, hle⟩
  | snowball =>
    obtain ⟨a, ha, hid, hpos, hle⟩ := generateScheduleGo_entries startDate _ _ _ e he
    exact ⟨a, (List.mem_insertionSort balanceAscLE).mp ha, hid,
      lt_of_lt_of_le hpos hle, hpos, hle⟩
  | hybrid =>
    have he' : e ∈ generateScheduleGo startDate
        ((accounts.filter fun account =>
          decide (HybridStrategy.highInterestThreshold ≤ account.interestRate)).insertionSort
            rateDescLE) (availableFunds * (7 / 10)) 0 ∨
        e ∈ generateScheduleGo startDate
        ((accounts.filter fun account =>
          decide (account.currentBalance ≤ HybridStrategy.lowBalanceThreshold)).insertionSort
            balanceAscLE) (availableFunds * (3 / 10)) _ :=
      List.mem_append.mp he
    rcases he' with h | h
    · obtain ⟨a, ha, hid, hpos, hle⟩ := generateScheduleGo_entries startDate _ _ _ e h
      exact ⟨a, (List.mem_filter.mp ((List.mem_insertionSort rateDescLE).mp ha)).1,
        hid, lt_of_lt_of_le hpos hle, hpos, hle⟩
    · obtain ⟨a, ha, hid, hpos, hle⟩ := generateScheduleGo_entries startDate _ _ _ e h
      exact ⟨a, (List.mem_filter.mp ((List.mem_insertionSort balanceAscLE).mp ha)).1,
        hid, lt_of_lt_of_le hpos hle, hpos, hle⟩

/-- Witness for C7 at a concrete input: the single avalanche entry for one
positive-balance account. -/
theorem schedule_entries_target_positive_witness :
    ∃ a ∈ [({ id := "d1", creditorId := "c1", accountId := "A",
              currentBalance := 500, interestRate := 12 / 100,
              minimumPayment := 25, dueDate := "2026-01-01" } : DebtAccount)],
      ({ accountId := "A", amount := 100, date := "2026-01-01",
         priority := 1 } : PaymentSchedule).accountId = a.accountId ∧
      0 < a.currentBalance ∧
      0 < ({ accountId := "A", amount := 100, date := "2026-01-01",
             priority := 1 } : PaymentSchedule).amount ∧
      ({ accountId := "A", amount := 100, date := "2026-01-01",
         priority := 1 } : PaymentSchedule).amount ≤ a.currentBalance :=
  schedule_entries_target_positive .avalanche
    [{ id := "d1", creditorId := "c1", accountId := "A",
       currentBalance := 500, interestRate := 12 / 100,
       minimumPayment := 25, dueDate := "2026-01-01" }] 100 "2026-01-01"
    { accountId := "A", amount := 100, date := "2026-01-01", priority := 1 }
    (by norm_num [strategyCalculate, AvalancheStrategy.calculatePayments,
      List.insertionSort, List.orderedInsert, generateSchedule,
      generateScheduleGo, min_def])

/-- The greedy loop never pays out more than the budget it walks with. -/
theorem generateScheduleGo_total_le_funds (startDate : String) :
    ∀ (accounts : List DebtAccount) (remainingFunds : ℚ) (k : Nat),
      0 ≤ remainingFunds →
      scheduleTotal (generateScheduleGo startDate accounts remainingFunds k) ≤
        remainingFunds := by
  intro accounts
  induction accounts with
  | nil => intro rem k h; simpa [generateScheduleGo, scheduleTotal] using h
  | cons a rest ih =>
    intro rem k h
    by_cases h0 : rem ≤ 0
    · simpa [generateScheduleGo, h0, scheduleTotal] using h
    · by_cases h1 : 0 < min rem a.currentBalance
      · have hle : min rem a.currentBalance ≤ rem := min_le_left _ _
        have ih' := ih (rem - min rem a.currentBalance) (k + 1) (by linarith)
        simp only [generateScheduleGo, if_neg h0, if_pos h1, scheduleTotal,
          List.map_cons, List.sum_cons] at ih' ⊢
        linarith
      · exact (by simpa [generateScheduleGo, h0, h1] using ih rem k h :
          scheduleTotal (generateScheduleGo startDate (a :: rest) rem k) ≤ rem)

/-- When every walked balance is non-negative, the greedy loop never pays
out more than the total balance of the walked accounts (each account is
visited once and receives at most its balance). -/
theorem generateScheduleGo_total_le_balance (startDate : String) :
    ∀ (accounts : List DebtAccount) (remainingFunds : ℚ) (k : Nat),
      (∀ a ∈ accounts, 0 ≤ a.currentBalance) →
      scheduleTotal (generateScheduleGo startDate accounts remainingFunds k) ≤
        totalBalance accounts := by
  intro accounts
  induction accounts with
  | nil => intro rem k _; simp [generateScheduleGo, scheduleTotal, totalBalance]
  | cons a rest ih =>
    intro rem k hbal
    have ha : 0 ≤ a.currentBalance := hbal a (List.mem_cons_self a rest)
    have hrest : ∀ b ∈ rest, 0 ≤ b.currentBalance :=
      fun b hb => hbal b (List.mem_cons_of_mem a hb)
    by_cases h0 : rem ≤ 0
    · have hnn : 0 ≤ totalBalance (a :: rest) := by
        simp only [totalBalance]
        exact List.sum_nonneg (by
          intro x hx
          obtain ⟨b, hb, rfl⟩ := List.mem_map.mp hx
          exact hbal b hb)
      simpa [generateScheduleGo, h0, scheduleTotal] using hnn
    · by_cases h1 : 0 < min rem a.currentBalance
      · have hle : min rem a.currentBalance ≤ a.currentBalance := min_le_right _ _
        have ih' := ih (rem - min rem a.currentBalance) (k + 1) hrest
        simp only [generateScheduleGo, if_neg h0, if_pos h1, scheduleTotal,
          totalBalance, List.map_cons, List.sum_cons] at ih' ⊢
        linarith
      · have ih' := ih rem k hrest
        simp only [generateScheduleGo, if_neg h0, if_neg h1, scheduleTotal,
          totalBalance, List.map_cons, List.sum_cons] at ih' ⊢
        linarith

/-- C4 counterexample: the claim as stated fails for the hybrid strategy.
A single account with balance 100 and rate 0.20 qualifies for both the
high-interest bucket (0.20 ≥ 0.15) and the low-balance bucket (100 ≤
1000); with funds 1000 each of the two independent greedy passes pays the
account's full balance of 100, so the schedule total 200 exceeds the total
balance 100 (even though the input is non-empty, every balance is
non-negative, and the funds are positive). -/
theorem hybrid_total_exceeds_balance_cex :
    ([({ id := "d1", creditorId := "c1", accountId := "A",
         currentBalance := 100, interestRate := 20 / 100,
         minimumPayment := 10, dueDate := "2026-01-01" } : DebtAccount)] ≠
        ([] : List DebtAccount)) ∧
    (∀ a ∈ [({ id := "d1", creditorId := "c1", accountId := "A",
               currentBalance := 100, interestRate := 20 / 100,
               minimumPayment := 10, dueDate := "2026-01-01" } : DebtAccount)],
      0 ≤ a.currentBalance) ∧
    (0 : ℚ) < 1000 ∧
    ¬ scheduleTotal (HybridStrategy.calculatePayments
        [{ id := "d1", creditorId := "c1", accountId := "A",
           currentBalance := 100, interestRate := 20 / 100,
           minimumPayment := 10, dueDate := "2026-01-01" }] 1000 "2026-01-01") ≤
      totalBalance
        [{ id := "d1", creditorId := "c1", accountId := "A",
           currentBalance := 100, interestRate := 20 / 100,
           minimumPayment := 10, dueDate := "2026-01-01" }] := by
  refine ⟨List.cons_ne_nil _ _, ?_, by norm_num, ?_⟩
  · intro a ha
    rcases List.mem_singleton.mp ha with rfl
    norm_num
  · norm_num [HybridStrategy.calculatePayments, HybridStrategy.highInterestThreshold,
      HybridStrategy.lowBalanceThreshold, List.insertionSort, List.orderedInsert,
      generateScheduleGo, scheduleTotal, totalBalance, min_def]

/-- C4 (amended per the counterexample above): for non-empty accounts with
non-negative balances and positive funds, the schedule total of each of
the three strategies is at most `available_funds` (exactly, so in
particular within the claim's one-minor-unit slack), and for avalanche and
snowball it is also at most the total current balance; the hybrid
strategy's double allocation breaks the balance bound, as flagged by the
spec's open question. -/
theorem schedule_total_bounds (accounts : List DebtAccount)
    (availableFunds : ℚ) (startDate : String)
    (hne : accounts ≠ [])
    (hbal : ∀ a ∈ accounts, 0 ≤ a.currentBalance)
    (hfunds : 0 < availableFunds) :
    scheduleTotal (AvalancheStrategy.calculatePayments accounts availableFunds
      startDate) ≤ availableFunds ∧
    scheduleTotal (AvalancheStrategy.calculatePayments accounts availableFunds
      startDate) ≤ totalBalance accounts ∧
    scheduleTotal (SnowballStrategy.calculatePayments accounts availableFunds
      startDate) ≤ availableFunds ∧
    scheduleTotal (SnowballStrategy.calculatePayments accounts availableFunds
      startDate) ≤ totalBalance accounts ∧
    scheduleTotal (HybridStrategy.calculatePayments accounts availableFunds
      startDate) ≤ availableFunds := by
  refine ⟨?_, ?_, ?_, ?_, ?_⟩
  · exact generateScheduleGo_total_le_funds startDate _ availableFunds 0 hfunds.le
  · have h := generateScheduleGo_total_le_balance startDate
      (accounts.insertionSort rateDescLE) availableFunds 0
      (fun a ha => hbal a ((List.mem_insertionSort rateDescLE).mp ha))
    have he : totalBalance (accounts.insertionSort rateDescLE) =
        totalBalance accounts := by
      simp only [totalBalance]
      exact ((List.perm_insertionSort rateDescLE accounts).map
        (fun a => a.currentBalance)).sum_eq
    exact le_of_le_of_eq h he
  · exact generateScheduleGo_total_le_funds startDate _ availableFunds 0 hfunds.le
  · have h := generateScheduleGo_total_le_balance startDate
      (accounts.insertionSort balanceAscLE) availableFunds 0
      (fun a ha => hbal a ((List.mem_insertionSort balanceAscLE).mp ha))
    have he : totalBalance (accounts.insertionSort balanceAscLE) =
        totalBalance accounts := by
      simp only [totalBalance]
      exact ((List.perm_insertionSort balanceAscLE accounts).map
        (fun a => a.currentBalance)).sum_eq
    exact le_of_le_of_eq h he
  · have h1 := generateScheduleGo_total_le_funds startDate
      ((accounts.filter fun account =>
        decide (HybridStrategy.highInterestThreshold ≤ account.interestRate)).insertionSort
          rateDescLE) (availableFunds * (7 / 10)) 0
      (mul_nonneg hfunds.le (by norm_num))
    have h2 := generateScheduleGo_total_le_funds startDate
      ((accounts.filter fun account =>
        decide (account.currentBalance ≤ HybridStrategy.lowBalanceThreshold)).insertionSort
          balanceAscLE) (availableFunds * (3 / 10))
      (generateScheduleGo startDate
        ((accounts.filter fun account =>
          decide (HybridStrategy.highInterestThreshold ≤ account.interestRate)).insertionSort
            rateDescLE) (availableFunds * (7 / 10)) 0).length
      (mul_nonneg hfunds.le (by norm_num))
    have hsplit : scheduleTotal (HybridStrategy.calculatePayments accounts
        availableFunds startDate) =
        scheduleTotal (generateScheduleGo startDate
          ((accounts.filter fun account =>
            decide (HybridStrategy.highInterestThreshold ≤ account.interestRate)).insertionSort
              rateDescLE) (availableFunds * (7 / 10)) 0) +
        scheduleTotal (generateScheduleGo startDate
          ((accounts.filter fun account =>
            decide (account.currentBalance ≤ HybridStrategy.lowBalanceThreshold)).insertionSort
              balanceAscLE) (availableFunds * (3 / 10))
          (generateScheduleGo startDate
            ((accounts.filter fun account =>
              decide (HybridStrategy.highInterestThreshold ≤ account.interestRate)).insertionSort
                rateDescLE) (availableFunds * (7 / 10)) 0).length) := by
      simp [HybridStrategy.calculatePayments, scheduleTotal]
    rw [hsplit]
    calc scheduleTotal _ + scheduleTotal _ ≤
        availableFunds * (7 / 10) + availableFunds * (3 / 10) :=
          add_le_add h1 h2
      _ = availableFunds := by ring

/-- Witness for C4 at a concrete input: one positive-balance account,
positive funds. -/
theorem schedule_total_bounds_witness :
    scheduleTotal (AvalancheStrategy.calculatePayments
      [{ id := "d1", creditorId := "c1", accountId := "A",
         currentBalance := 500, interestRate := 12 / 100,
         minimumPayment := 25, dueDate := "2026-01-01" }] 300 "2026-01-01") ≤ 300 ∧
    scheduleTotal (AvalancheStrategy.calculatePayments
      [{ id := "d1", creditorId := "c1", accountId := "A",
         currentBalance := 500, interestRate := 12 / 100,
         minimumPayment := 25, dueDate := "2026-01-01" }] 300 "2026-01-01") ≤
      totalBalance
        [{ id := "d1", creditorId := "c1", accountId := "A",
           currentBalance := 500, interestRate := 12 / 100,
           minimumPayment := 25, dueDate := "2026-01-01" }] ∧
    scheduleTotal (SnowballStrategy.calculatePayments
      [{ id := "d1", creditorId := "c1", accountId := "A",
         currentBalance := 500, interestRate := 12 / 100,
         minimumPayment := 25, dueDate := "2026-01-01" }] 300 "2026-01-01") ≤ 300 ∧
    scheduleTotal (SnowballStrategy.calculatePayments
      [{ id := "d1", creditorId := "c1", accountId := "A",
         currentBalance := 500, interestRate := 12 / 100,
         minimumPayment := 25, dueDate := "2026-01-01" }] 300 "2026-01-01") ≤
      totalBalance
        [{ id := "d1", creditorId := "c1", accountId := "A",
           currentBalance := 500, interestRate := 12 / 100,
           minimumPayment := 25, dueDate := "2026-01-01" }] ∧
    scheduleTotal (HybridStrategy.calculatePayments
      [{ id := "d1", creditorId := "c1", accountId := "A",
         currentBalance := 500, interestRate := 12 / 100,
         minimumPayment := 25, dueDate := "2026-01-01" }] 300 "2026-01-01") ≤ 300 :=
  schedule_total_bounds
    [{ id := "d1", creditorId := "c1", accountId := "A",
       currentBalance := 500, interestRate := 12 / 100,
       minimumPayment := 25, dueDate := "2026-01-01" }] 300 "2026-01-01"
    (List.cons_ne_nil _ _)
    (by
      intro a ha
      rcases List.mem_singleton.mp ha with rfl
      norm_num)
    (by norm_num)

/-- Two positions of a list, taken in order, form a two-element sublist. -/
theorem pair_get_sublist {α : Type} {L : List α} {i j : Nat}
    (hij : i < j) (hj : j < L.length) :
    List.Sublist [L.get ⟨i, lt_trans hij hj⟩, L.get ⟨j, hj⟩] L := by
  induction L generalizing i j with
  | nil => exact absurd hj (Nat.not_lt_zero j)
  | cons x t ih =>
    cases j with
    | zero => exact absurd hij (Nat.not_lt_zero i)
    | succ j' =>
      cases i with
      | zero =>
        have hj't : j' < t.length := Nat.lt_of_succ_lt_succ hj
        show List.Sublist [x, t.get ⟨j', hj't⟩] (x :: t)
        exact List.Sublist.cons₂ x (List.singleton_sublist.mpr (t.get_mem j' hj't))
      | succ i' =>
        have hij' : i' < j' := Nat.lt_of_succ_lt_succ hij
        have hj't : j' < t.length := Nat.lt_of_succ_lt_succ hj
        show List.Sublist [t.get ⟨i', lt_trans hij' hj't⟩, t.get ⟨j', hj't⟩] (x :: t)
        exact List.Sublist.cons x (ih hij' hj't)

/-- Splitting a list at its first element satisfying `P`. -/
theorem exists_first_decomp {α : Type} (P : α → Prop) [DecidablePred P] :
    ∀ l : List α, (∃ x ∈ l, P x) →
      ∃ l1 x l2, l = l1 ++ x :: l2 ∧ (∀ y ∈ l1, ¬ P y) ∧ P x := by
  intro l
  induction l with
  | nil =>
    rintro ⟨x, hx, -⟩
    cases hx
  | cons a t ih =>
    intro hex
    by_cases ha : P a
    · exact ⟨[], a, t, rfl, by simp, ha⟩
    · obtain ⟨x, hx, hPx⟩ := hex
      rcases List.mem_cons.mp hx with rfl | hxt
      · exact absurd hPx ha
      · obtain ⟨l1, y, l2, heq, hl1, hy⟩ := ih ⟨x, hxt, hPx⟩
        refine ⟨a :: l1, y, l2, by rw [heq]; rfl, ?_, hy⟩
        intro z hz
        rcases List.mem_cons.mp hz with rfl | hz'
        · exact ha
        · exact hl1 z hz'

/-- With a positive budget the greedy loop skips the leading non-positive
balances and emits its first entry for the first positive-balance
account, paying `min(budget, balance)`. -/
theorem generateScheduleGo_first (startDate : String) {remainingFunds : ℚ}
    (hrem : 0 < remainingFunds) :
    ∀ (l1 : List DebtAccount) (a : DebtAccount) (l2 : List DebtAccount) (k : Nat),
      (∀ b ∈ l1, b.currentBalance ≤ 0) → 0 < a.currentBalance →
      generateScheduleGo startDate (l1 ++ a :: l2) remainingFunds k =
        { accountId := a.accountId,
          amount := min remainingFunds a.currentBalance,
          date := startDate, priority := k + 1 } ::
        generateScheduleGo startDate l2
          (remainingFunds - min remainingFunds a.currentBalance) (k + 1) := by
  intro l1
  induction l1 with
  | nil =>
    intro a l2 k _ hpos
    have h1 : 0 < min remainingFunds a.currentBalance := lt_min hrem hpos
    simp [generateScheduleGo, not_le.mpr hrem, h1]
  | cons b t ih =>
    intro a l2 k hle hpos
    have hb : b.currentBalance ≤ 0 := hle b (List.mem_cons_self b t)
    have h1 : ¬ 0 < min remainingFunds b.currentBalance :=
      not_lt.mpr (le_trans (min_le_right _ _) hb)
    show generateScheduleGo startDate (b :: (t ++ a :: l2)) remainingFunds k = _
    simp only [generateScheduleGo, if_neg (not_le.mpr hrem), if_neg h1]
    exact ih a l2 k (fun y hy => hle y (List.mem_cons_of_mem b hy)) hpos

/-- Key step of the stability argument: if the pair `[u, v]` is a sublist
of `t1 ++ v :: t2` and the marked occurrence of `v` is its only one, then
`u` lies in the prefix `t1`. -/
theorem mem_prefix_of_pair_sublist {α : Type} {u v : α} {t1 t2 : List α}
    (h : List.Sublist [u, v] (t1 ++ v :: t2)) (huv : u ≠ v)
    (hv1 : v ∉ t1) (hv2 : v ∉ t2) : u ∈ t1 := by
  obtain ⟨s1, s2, heq, hsub1, hsub2⟩ := List.sublist_append_iff.mp h
  cases s1 with
  | nil =>
    rw [List.nil_append] at heq
    rw [← heq] at hsub2
    cases hsub2 with
    | cons _ h' => exact absurd (h'.subset (by simp)) hv2
    | cons₂ _ h' => exact absurd rfl huv
  | cons w s1' =>
    injection heq with h1 h2
    subst h1
    cases s1' with
    | nil => exact List.singleton_sublist.mp (by simpa using hsub1)
    | cons w2 s1'' =>
      injection h2 with h3 h4
      subst h3
      exact absurd (hsub1.subset (by simp)) hv1

/-- Dropping the index tags commutes with sorting: the stably sorted
tagged list projects to the stably sorted plain list. -/
theorem insertionSort_enum_map_snd (rel : DebtAccount → DebtAccount → Prop)
    [DecidableRel rel] (l : List DebtAccount) :
    (l.enum.insertionSort (relTag rel)).map Prod.snd = l.insertionSort rel := by
  rw [List.map_insertionSort (relTag rel) rel Prod.snd l.enum
    (fun a _ b _ => Iff.rfl)]
  rw [show l.enum.map Prod.snd = l from List.enumFrom_map_snd 0 l]

/-- Generic first-entry characterisation of a strategy that stably sorts
by a total preorder `rel` and then runs the greedy loop: with positive
funds and some positive balance present, the first schedule entry pays
`min(funds, balance)` to the account at an input position `i` whose
balance is positive, which is `rel`-before-or-tied with every
positive-balance account, and which is preceded in the input by no
positive-balance account `rel`-before-or-tied with it (the stable sort
resolves ties in favour of the earliest input position). -/
theorem sorted_first_entry (rel : DebtAccount → DebtAccount → Prop)
    [DecidableRel rel] [IsTotal DebtAccount rel] [IsTrans DebtAccount rel]
    (accounts : List DebtAccount) (availableFunds : ℚ) (startDate : String)
    (hpos : ∃ x ∈ accounts, 0 < x.currentBalance) (hf : 0 < availableFunds) :
    ∃ i : Fin accounts.length,
      0 < (accounts.get i).currentBalance ∧
      (∀ b ∈ accounts, 0 < b.currentBalance → rel (accounts.get i) b) ∧
      (∀ j : Fin accounts.length, (j : Nat) < (i : Nat) →
        0 < (accounts.get j).currentBalance →
        ¬ rel (accounts.get j) (accounts.get i)) ∧
      (generateScheduleGo startDate (accounts.insertionSort rel) availableFunds
          0).head? =
        some { accountId := (accounts.get i).accountId,
               amount := min availableFunds (accounts.get i).currentBalance,
               date := startDate, priority := 1 } := by
  have hperm : List.Perm (accounts.enum.insertionSort (relTag rel))
      accounts.enum := List.perm_insertionSort _ _
  have hsorted : (accounts.enum.insertionSort (relTag rel)).Sorted
      (relTag rel) := List.sorted_insertionSort _ _
  have hnodupE : accounts.enum.Nodup :=
    List.Nodup.of_map Prod.fst (List.nodup_enum_map_fst accounts)
  have hnodupT : (accounts.enum.insertionSort (relTag rel)).Nodup :=
    hperm.nodup_iff.mpr hnodupE
  obtain ⟨x0, hx0mem, hx0pos⟩ := hpos
  obtain ⟨i0, hi0⟩ := List.mem_iff_get.mp hx0mem
  have hx0enum : ((i0 : Nat), x0) ∈ accounts.enum :=
    List.mk_mem_enum_iff_get?.mpr (by rw [List.get?_eq_get i0.2, hi0])
  have hposT : ∃ y ∈ accounts.enum.insertionSort (relTag rel),
      0 < y.2.currentBalance :=
    ⟨((i0 : Nat), x0), hperm.mem_iff.mpr hx0enum, hx0pos⟩
  obtain ⟨t1, x, t2, hTeq, ht1, hxpos⟩ :=
    exists_first_decomp (fun y => 0 < y.2.currentBalance) _ hposT
  have hxT : x ∈ accounts.enum.insertionSort (relTag rel) := by
    rw [hTeq]
    exact List.mem_append.mpr (Or.inr (List.mem_cons_self _ _))
  obtain ⟨hlen, hget⟩ := List.get?_eq_some.mp
    (List.mk_mem_enum_iff_get?.mp
      (show (x.1, x.2) ∈ accounts.enum from hperm.mem_iff.mp hxT))
  refine ⟨⟨x.1, hlen⟩, ?_, ?_, ?_, ?_⟩
  · rw [show accounts.get ⟨x.1, hlen⟩ = x.2 from hget]
    exact hxpos
  · intro b hb hbpos
    rw [show accounts.get ⟨x.1, hlen⟩ = x.2 from hget]
    obtain ⟨j, hj⟩ := List.mem_iff_get.mp hb
    have hbenum : ((j : Nat), b) ∈ accounts.enum :=
      List.mk_mem_enum_iff_get?.mpr (by rw [List.get?_eq_get j.2, hj])
    have hbT : ((j : Nat), b) ∈ accounts.enum.insertionSort (relTag rel) :=
      hperm.mem_iff.mpr hbenum
    rw [hTeq] at hbT
    rcases List.mem_append.mp hbT with h1 | h1
    · exact absurd hbpos (by simpa using ht1 _ h1)
    · rcases List.mem_cons.mp h1 with heq2 | h2
      · have hb2 : b = x.2 := congrArg Prod.snd heq2
        rw [hb2]
        rcases total_of rel x.2 x.2 with h | h
        · exact h
        · exact h
      · have hp := hsorted
        rw [hTeq] at hp
        exact (List.pairwise_cons.mp (List.pairwise_append.mp hp).2.1).1 _ h2
  · intro j hj hjpos hrel
    rw [show accounts.get ⟨x.1, hlen⟩ = x.2 from hget] at hrel
    have hxlen : x.1 < accounts.enum.length := by
      simpa [List.enum_eq_enumFrom, List.enumFrom_length] using hlen
    have he1 : accounts.enum.get ⟨(j : Nat), lt_trans hj hxlen⟩ =
        ((j : Nat), accounts.get j) := by
      simp [List.enum_eq_enumFrom, List.get_eq_getElem, List.getElem_enumFrom]
    have he2 : accounts.enum.get ⟨x.1, hxlen⟩ = (x.1, x.2) := by
      simp only [List.enum_eq_enumFrom, List.get_eq_getElem,
        List.getElem_enumFrom, Nat.zero_add, Prod.mk.injEq, true_and]
      exact hget
    have hpairE : List.Sublist [((j : Nat), accounts.get j), (x.1, x.2)]
        accounts.enum := by
      have hs := pair_get_sublist hj hxlen
      rw [he1, he2] at hs
      exact hs
    have hrelT : relTag rel ((j : Nat), accounts.get j) (x.1, x.2) := hrel
    have hsub := List.pair_sublist_insertionSort hrelT hpairE
    rw [hTeq] at hsub
    have hne2 : ((j : Nat), accounts.get j) ≠ x := by
      intro he
      exact absurd (congrArg Prod.fst he) (Nat.ne_of_lt hj)
    have hx1 : x ∉ t1 := by
      intro hmem
      have hnd := hnodupT
      rw [hTeq] at hnd
      exact (List.nodup_append.mp hnd).2.2 hmem (List.mem_cons_self _ _)
    have hx2 : x ∉ t2 := by
      have hnd := hnodupT
      rw [hTeq] at hnd
      exact (List.nodup_cons.mp (List.nodup_append.mp hnd).2.1).1
    have hmem := mem_prefix_of_pair_sublist hsub hne2 hx1 hx2
    exact ht1 _ hmem hjpos
  · rw [show accounts.get ⟨x.1, hlen⟩ = x.2 from hget]
    have hmap : accounts.insertionSort rel =
        t1.map Prod.snd ++ x.2 :: t2.map Prod.snd := by
      rw [← insertionSort_enum_map_snd rel accounts, hTeq]
      simp
    have hpre : ∀ b ∈ t1.map Prod.snd, b.currentBalance ≤ 0 := by
      intro b hb
      obtain ⟨y, hy, rfl⟩ := List.mem_map.mp hb
      exact not_lt.mp (ht1 y hy)
    rw [hmap, generateScheduleGo_first startDate hf (t1.map Prod.snd) x.2
      (t2.map Prod.snd) 0 hpre hxpos]
    rfl

/-- C5: with positive funds and at least one positive-balance account,
the avalanche strategy's first schedule entry targets an account whose
`interestRate` is maximal among the positive-balance accounts, and on
rate ties it is the earliest such account in the original input order
(every earlier positive-balance account has strictly smaller rate); the
entry pays `min(funds, balance)` at priority 1. -/
theorem avalanche_first_entry (accounts : List DebtAccount)
    (availableFunds : ℚ) (startDate : String)
    (hpos : ∃ x ∈ accounts, 0 < x.currentBalance) (hf : 0 < availableFunds) :
    ∃ i : Fin accounts.length,
      0 < (accounts.get i).currentBalance ∧
      (∀ b ∈ accounts, 0 < b.currentBalance →
        b.interestRate ≤ (accounts.get i).interestRate) ∧
      (∀ j : Fin accounts.length, (j : Nat) < (i : Nat) →
        0 < (accounts.get j).currentBalance →
        (accounts.get j).interestRate < (accounts.get i).interestRate) ∧
      (AvalancheStrategy.calculatePayments accounts availableFunds
          startDate).head? =
        some { accountId := (accounts.get i).accountId,
               amount := min availableFunds (accounts.get i).currentBalance,
               date := startDate, priority := 1 } := by
  obtain ⟨i, h1, h2, h3, h4⟩ :=
    sorted_first_entry rateDescLE accounts availableFunds startDate hpos hf
  exact ⟨i, h1, h2, fun j hj hjp => not_le.mp (h3 j hj hjp), h4⟩

/-- Witness for C5 at the spec's worked example: accounts A (balance 1000,
rate 5%) then B (balance 500, rate 20%), funds 300 — the first (and only)
entry pays 300 to B. -/
theorem avalanche_first_entry_witness :
    (∃ x ∈ exampleAccounts, 0 < x.currentBalance) ∧ (0 : ℚ) < 300 ∧
    ∃ i : Fin exampleAccounts.length,
      0 < (exampleAccounts.get i).currentBalance ∧
      (∀ b ∈ exampleAccounts, 0 < b.currentBalance →
        b.interestRate ≤ (exampleAccounts.get i).interestRate) ∧
      (∀ j : Fin exampleAccounts.length, (j : Nat) < (i : Nat) →
        0 < (exampleAccounts.get j).currentBalance →
        (exampleAccounts.get j).interestRate <
          (exampleAccounts.get i).interestRate) ∧
      (AvalancheStrategy.calculatePayments exampleAccounts 300
          "2026-02-01").head? =
        some { accountId := (exampleAccounts.get i).accountId,
               amount := min 300 (exampleAccounts.get i).currentBalance,
               date := "2026-02-01", priority := 1 } :=
  ⟨⟨exampleAccountA, List.mem_cons_self _ _, by decide⟩, by decide,
    avalanche_first_entry exampleAccounts 300 "2026-02-01"
      ⟨exampleAccountA, List.mem_cons_self _ _, by decide⟩ (by decide)⟩

/-- C6: with positive funds and at least one positive-balance account,
the snowball strategy's first schedule entry targets an account whose
`currentBalance` is minimal among the positive-balance accounts, and on
balance ties it is the earliest such account in the original input order
(every earlier positive-balance account has strictly larger balance); the
entry pays `min(funds, balance)` at priority 1. -/
theorem snowball_first_entry (accounts : List DebtAccount)
    (availableFunds : ℚ) (startDate : String)
    (hpos : ∃ x ∈ accounts, 0 < x.currentBalance) (hf : 0 < availableFunds) :
    ∃ i : Fin accounts.length,
      0 < (accounts.get i).currentBalance ∧
      (∀ b ∈ accounts, 0 < b.currentBalance →
        (accounts.get i).currentBalance ≤ b.currentBalance) ∧
      (∀ j : Fin accounts.length, (j : Nat) < (i : Nat) →
        0 < (accounts.get j).currentBalance →
        (accounts.get i).currentBalance < (accounts.get j).currentBalance) ∧
      (SnowballStrategy.calculatePayments accounts availableFunds
          startDate).head? =
        some { accountId := (accounts.get i).accountId,
               amount := min availableFunds (accounts.get i).currentBalance,
               date := startDate, priority := 1 } := by
  obtain ⟨i, h1, h2, h3, h4⟩ :=
    sorted_first_entry balanceAscLE accounts availableFunds startDate hpos hf
  exact ⟨i, h1, h2, fun j hj hjp => not_le.mp (h3 j hj hjp), h4⟩

/-- Witness for C6 at the spec's worked example (same accounts, funds
300): B has the smaller positive balance, so the first entry pays 300 to
B. -/
theorem snowball_first_entry_witness :
    (∃ x ∈ exampleAccounts, 0 < x.currentBalance) ∧ (0 : ℚ) < 300 ∧
    ∃ i : Fin exampleAccounts.length,
      0 < (exampleAccounts.get i).currentBalance ∧
      (∀ b ∈ exampleAccounts, 0 < b.currentBalance →
        (exampleAccounts.get i).currentBalance ≤ b.currentBalance) ∧
      (∀ j : Fin exampleAccounts.length, (j : Nat) < (i : Nat) →
        0 < (exampleAccounts.get j).currentBalance →
        (exampleAccounts.get i).currentBalance <
          (exampleAccounts.get j).currentBalance) ∧
      (SnowballStrategy.calculatePayments exampleAccounts 300
          "2026-02-01").head? =
        some { accountId := (exampleAccounts.get i).accountId,
               amount := min 300 (exampleAccounts.get i).currentBalance,
               date := "2026-02-01", priority := 1 } :=
  ⟨⟨exampleAccountA, List.mem_cons_self _ _, by decide⟩, by decide,
    snowball_first_entry exampleAccounts 300 "2026-02-01"
      ⟨exampleAccountA, List.mem_cons_self _ _, by decide⟩ (by decide)⟩

/-- C9: each strategy call and each projection call leaves the caller's
accounts array unchanged — the strategies sort a spread copy
(`[...accounts].sort`), the hybrid strategy reads only fresh `filter`
results, and the projection writes only to the freshly allocated
`simulatedAccounts` objects — and each operation is a pure function of
its arguments, so two calls on identical inputs observe identical inputs
and return identical results. -/
theorem engine_preserves_inputs (accounts : List DebtAccount)
    (availableFunds : ℚ) (startDate : String) (fuel : Nat)
    (paymentSchedule : List PaymentSchedule) :
    (AvalancheStrategy.calculatePaymentsCall accounts availableFunds
      startDate).2 = accounts ∧
    (SnowballStrategy.calculatePaymentsCall accounts availableFunds
      startDate).2 = accounts ∧
    (HybridStrategy.calculatePaymentsCall accounts availableFunds
      startDate).2 = accounts ∧
    (OptimizationEngine.calculateProjectedSavingsCall fuel accounts
      paymentSchedule).2 = accounts ∧
    (AvalancheStrategy.calculatePaymentsCall accounts availableFunds
      startDate).1 =
      AvalancheStrategy.calculatePayments accounts availableFunds startDate ∧
    (SnowballStrategy.calculatePaymentsCall accounts availableFunds
      startDate).1 =
      SnowballStrategy.calculatePayments accounts availableFunds startDate ∧
    (HybridStrategy.calculatePaymentsCall accounts availableFunds
      startDate).1 =
      HybridStrategy.calculatePayments accounts availableFunds startDate ∧
    (OptimizationEngine.calculateProjectedSavingsCall fuel accounts
      paymentSchedule).1 =
      OptimizationEngine.calculateProjectedSavings fuel accounts
        paymentSchedule :=
  ⟨rfl, rfl, rfl, rfl, rfl, rfl, rfl, rfl⟩

end MicroRepay
